import Mathlib

/-!
Verification of the multi-timeframe market-data aggregation pipeline of the
valuecell repository: a shallow embedding of
src/python/valuecell/agents/common/trading/data/market.py
(SimpleMarketDataSource) and
src/python/valuecell/agents/common/trading/features/pipeline.py
(DefaultFeaturesPipeline), together with theorems settling the spec claims
about symbol normalization, interval fallback, per-symbol error isolation,
session lifecycle, snapshot assembly, the concurrent fan-out/join of
build(), and the trend-alignment summary.

External collaborators (the ccxt exchange client, the feature computers) are
modelled as oracles: functions returning Except values, an error standing
for a raised exception. Prices and exchange payloads are an opaque type
parameter V, since the code only passes them through.
-/

namespace ValueCell

/-- Modelled from the spec: InstrumentRef from
valuecell.agents.common.trading.models (models.py is not under src/):
identifies a tradable instrument by canonical symbol and exchange id. -/
structure InstrumentRef where
  symbol : String
  exchange_id : String
deriving DecidableEq, Repr

/-- Modelled from the spec: Candle from
valuecell.agents.common.trading.models (models.py is not under src/): one
OHLCV bar. Price and volume payloads are an opaque type parameter V
(the code only passes the exchange's floats through unchanged). -/
structure Candle (V : Type) where
  ts : Int
  instrument : InstrumentRef
  «open» : V
  high : V
  low : V
  close : V
  volume : V
  interval : String
deriving DecidableEq, Repr

/-- Modelled from the spec: CandleConfig from
valuecell.agents.common.trading.models (models.py is not under src/):
one timeframe-table entry, a pair of interval label and lookback count. -/
structure CandleConfig where
  interval : String
  lookback : Nat
deriving DecidableEq, Repr

/-- Modelled from the spec: FeaturesPipelineResult from
valuecell.agents.common.trading.models (models.py is not under src/):
an ordered sequence of feature vectors. The feature type is an opaque
parameter F, matching the spec's "opaque unit" treatment. -/
structure FeaturesPipelineResult (F : Type) where
  features : List F
deriving DecidableEq, Repr

/-- One raw exchange OHLCV row, shape (timestamp, open, high, low, close,
volume), as unpacked by the row loop of get_recent_candles
(market.py line 122). -/
structure OhlcvRow (V : Type) where
  ts : Int
  o : V
  h : V
  l : V
  c : V
  v : V
deriving DecidableEq, Repr

/-- Session lifecycle events of one exchange-client instance: creation via
_create_exchange and the close attempt of the finally block
(market.py lines 100, 146-150). -/
inductive SessionEvent where
  | created
  | closeAttempted
deriving DecidableEq, Repr

/-- Oracle for the ccxt exchange client as used by the candle fetchers:
load_markets yields the catalogue's key set (or raises), fetch_ohlcv takes
(ccxt symbol, timeframe, limit) and yields raw rows (or raises). -/
structure CandleOracle (V E : Type) where
  loadMarkets : Except E (List String)
  fetchOHLCV : String → String → Nat → Except E (List (OhlcvRow V))

/-- Python str.split with a single-character separator, on the character
list of the string: used to embed base_symbol.split("/") of
_get_ccxt_symbol (market.py line 85). -/
def pySplit (sep : Char) : List Char → List (List Char)
  | [] => [[]]
  | ch :: cs =>
    if ch == sep then [] :: pySplit sep cs
    else
      match pySplit sep cs with
      | [] => [[ch]]
      | g :: gs => (ch :: g) :: gs

/-- Character-level embedding of SimpleMarketDataSource._get_ccxt_symbol
(market.py lines 69-88): replace every dash by a slash; for spot markets
return the result; otherwise, when no colon is present and the result
splits on the slash into exactly two parts BASE and QUOTE, return
BASE/QUOTE:QUOTE, else return the dash-normalized symbol unchanged. -/
def ccxtSymbolCore (symbol : List Char) (marketType : String) : List Char :=
  let baseSymbol := symbol.map fun ch => if ch == '-' then '/' else ch
  if marketType == "spot" then
    baseSymbol
  else
    if !(baseSymbol.contains ':') then
      match pySplit '/' baseSymbol with
      | [b, q] => b ++ '/' :: q ++ ':' :: q
      | _ => baseSymbol
    else
      baseSymbol

/-- Embedding of SimpleMarketDataSource._get_ccxt_symbol on strings. -/
def getCcxtSymbol (symbol : String) (marketType : String) : String :=
  String.mk (ccxtSymbolCore symbol.toList marketType)

/-- Conversion of one raw OHLCV row into a Candle, as in the row loop of
get_recent_candles (market.py lines 121-137): the instrument keeps the
caller's symbol spelling, the interval tag is the interval actually used
for the fetch. -/
def rowToCandle (exchangeId : String) (symbol : String) (interval : String)
    (r : OhlcvRow V) : Candle V :=
  { ts := r.ts
    instrument := { symbol := symbol, exchange_id := exchangeId }
    «open» := r.o
    high := r.h
    low := r.l
    close := r.c
    volume := r.v
    interval := interval }

/-- Embedding of SimpleMarketDataSource.get_recent_candles
(market.py lines 90-153). The first component is the returned candle
list; the second is the trace of session events of the call, recording
that an exchange instance is created and that the finally block attempts
to close it on each exit path. A "1s" interval falls back to "1m" before
anything else happens; a catalogue-load failure yields the empty list;
inside the per-symbol loop, a symbol missing from the catalogue or a
failing fetch_ohlcv is skipped and the loop continues. -/
def getRecentCandles (exchangeId : String) (o : CandleOracle V E)
    (symbols : List String) (interval : String) (lookback : Nat) :
    List (Candle V) × List SessionEvent :=
  let interval1 := if interval == "1s" then "1m" else interval
  match o.loadMarkets with
  | .error _ =>
    ([], [SessionEvent.created, SessionEvent.closeAttempted])
  | .ok markets =>
    let allCandles := symbols.foldl (fun acc symbol =>
      let ccxtSymbol := getCcxtSymbol symbol "swap"
      if markets.contains ccxtSymbol then
        match o.fetchOHLCV ccxtSymbol interval1 lookback with
        | .error _ => acc
        | .ok raw => acc ++ raw.map (rowToCandle exchangeId symbol interval1)
      else acc) []
    (allCandles, [SessionEvent.created, SessionEvent.closeAttempted])

/-- The candles one symbol contributes inside the per-symbol loop of
get_recent_candles, after the catalogue loaded as markets: empty when the
ccxt symbol is missing from the catalogue or the fetch raises, otherwise
the fetched rows converted in order. -/
def candlesForSymbol (exchangeId : String) (o : CandleOracle V E)
    (markets : List String) (interval : String) (lookback : Nat)
    (symbol : String) : List (Candle V) :=
  let ccxtSymbol := getCcxtSymbol symbol "swap"
  if markets.contains ccxtSymbol then
    match o.fetchOHLCV ccxtSymbol interval lookback with
    | .error _ => []
    | .ok raw => raw.map (rowToCandle exchangeId symbol interval)
  else []

/-- Embedding of SimpleMarketDataSource.get_multi_timeframe_candles
(market.py lines 155-246): one shared session loads the catalogue once;
then for each (timeframe, limit) entry of the table, in order, the
per-symbol loop fetches with that timeframe verbatim (no interval
fallback appears in this method) and the entry's candle list is recorded
under that timeframe key. A catalogue-load failure yields the empty
mapping. -/
def getMultiTimeframeCandles (exchangeId : String) (o : CandleOracle V E)
    (symbols : List String) (timeframes : List (String × Nat)) :
    List (String × List (Candle V)) :=
  match o.loadMarkets with
  | .error _ => []
  | .ok markets =>
    timeframes.foldl (fun result entry =>
      let candles := symbols.foldl (fun acc symbol =>
        let ccxtSymbol := getCcxtSymbol symbol "swap"
        if markets.contains ccxtSymbol then
          match o.fetchOHLCV ccxtSymbol entry.1 entry.2 with
          | .error _ => acc
          | .ok raw => acc ++ raw.map (rowToCandle exchangeId symbol entry.1)
        else acc) []
      result ++ [(entry.1, candles)]) []

/-- Written from the spec's words, for comparison with the source-derived
getMultiTimeframeCandles: the variant in which the multi-timeframe fetch
applies "the same fallback rules" as the single-timeframe fetch, i.e. a
"1s" table entry is fetched (and its candles tagged) with "1m" instead. -/
def getMultiTimeframeCandlesSpecFallback (exchangeId : String)
    (o : CandleOracle V E) (symbols : List String)
    (timeframes : List (String × Nat)) : List (String × List (Candle V)) :=
  match o.loadMarkets with
  | .error _ => []
  | .ok markets =>
    timeframes.foldl (fun result entry =>
      let tf := if entry.1 == "1s" then "1m" else entry.1
      let candles := symbols.foldl (fun acc symbol =>
        let ccxtSymbol := getCcxtSymbol symbol "swap"
        if markets.contains ccxtSymbol then
          match o.fetchOHLCV ccxtSymbol tf entry.2 with
          | .error _ => acc
          | .ok raw => acc ++ raw.map (rowToCandle exchangeId symbol tf)
        else acc) []
      result ++ [(entry.1, candles)]) []

/-- The candles one symbol contributes inside one timeframe entry of
get_multi_timeframe_candles: identical to candlesForSymbol with the
entry's own interval. -/
def multiCandlesForSymbol (exchangeId : String) (o : CandleOracle V E)
    (markets : List String) (timeframe : String) (limit : Nat)
    (symbol : String) : List (Candle V) :=
  candlesForSymbol exchangeId o markets timeframe limit symbol

/-- Oracle for the ccxt exchange client as used by get_market_snapshot:
load_markets succeeds or raises; fetch_ticker, fetch_funding_rate and
fetch_open_interest take the ccxt symbol and yield an opaque payload or
raise. -/
structure SnapshotOracle (V E : Type) where
  loadMarkets : Except E Unit
  fetchTicker : String → Except E V
  fetchFundingRate : String → Except E V
  fetchOpenInterest : String → Except E V

/-- One symbol's sub-mapping in a market snapshot: the required price
payload plus the optional funding-rate and open-interest payloads. -/
structure SnapshotEntry (V : Type) where
  price : V
  funding_rate : Option V
  open_interest : Option V
deriving DecidableEq, Repr

/-- The entry get_market_snapshot produces for one symbol
(market.py lines 258-282): none when fetch_ticker raises (the symbol is
skipped); otherwise the ticker payload under price, with the funding-rate
and open-interest payloads present exactly when their optional fetches
succeed. -/
def snapshotStep (o : SnapshotOracle V E) (symbol : String) :
    Option (String × SnapshotEntry V) :=
  let ccxtSymbol := getCcxtSymbol symbol "swap"
  match o.fetchTicker ccxtSymbol with
  | .error _ => none
  | .ok ticker =>
    some (symbol,
      { price := ticker
        funding_rate := (o.fetchFundingRate ccxtSymbol).toOption
        open_interest := (o.fetchOpenInterest ccxtSymbol).toOption })

/-- Embedding of SimpleMarketDataSource.get_market_snapshot
(market.py lines 248-293): load the catalogue (a failure yields the empty
mapping), then per symbol build the snapshot entry via snapshotStep,
skipping symbols whose ticker fetch raises. -/
def getMarketSnapshot (o : SnapshotOracle V E) (symbols : List String) :
    List (String × SnapshotEntry V) :=
  match o.loadMarkets with
  | .error _ => []
  | .ok _ => symbols.filterMap (snapshotStep o)

lemma snapshotStep_key {V E : Type} {o : SnapshotOracle V E} {y : String}
    {p : String × SnapshotEntry V} (h : snapshotStep o y = some p) :
    p.1 = y := by
  simp only [snapshotStep] at h
  cases hf : o.fetchTicker (getCcxtSymbol y "swap") with
  | error e => rw [hf] at h; cases h
  | ok t =>
    rw [hf] at h
    injection h with h'
    rw [← h']

lemma lookup_snapshot_of_step_none {V E : Type} {o : SnapshotOracle V E}
    {s : String} (hstep : snapshotStep o s = none) :
    ∀ (symbols : List String),
      (symbols.filterMap (snapshotStep o)).lookup s = none := by
  intro symbols
  induction symbols with
  | nil => rfl
  | cons y t ih =>
    cases hy : snapshotStep o y with
    | none => simpa [List.filterMap_cons, hy] using ih
    | some p =>
      have hkey := snapshotStep_key hy
      have hne : p.1 ≠ s := by
        intro e
        rw [← hkey, e] at hy
        rw [hstep] at hy
        cases hy
      cases p with
      | mk k v =>
        have hb : (s == k) = false := by
          simpa using Ne.symm hne
        simp only [List.filterMap_cons, hy, List.lookup]
        rw [hb]
        exact ih

lemma lookup_snapshot_of_step_some {V E : Type} {o : SnapshotOracle V E}
    {s : String} {entry : SnapshotEntry V}
    (hstep : snapshotStep o s = some (s, entry)) :
    ∀ {symbols : List String}, s ∈ symbols →
      (symbols.filterMap (snapshotStep o)).lookup s = some entry := by
  intro symbols hs
  induction symbols with
  | nil => cases hs
  | cons y t ih =>
    by_cases hsy : s = y
    · subst hsy
      simp [List.filterMap_cons, hstep, List.lookup]
    · have hs' : s ∈ t := by
        rcases List.mem_cons.mp hs with h | h
        · exact absurd h hsy
        · exact h
      cases hy : snapshotStep o y with
      | none =>
        simp only [List.filterMap_cons, hy]
        exact ih hs'
      | some p =>
        have hkey := snapshotStep_key hy
        cases p with
        | mk k v =>
          have hb : (s == k) = false := by
            have : s ≠ k := by
              simp only at hkey
              rw [hkey]
              exact hsy
            simpa using this
          simp only [List.filterMap_cons, hy, List.lookup]
          rw [hb]
          exact ih hs'

/-- C6: in get_market_snapshot, once the catalogue loaded, a symbol whose
required ticker fetch raises is entirely absent from the returned
mapping, while a symbol whose ticker fetch succeeds is present with its
price payload, carrying the funding-rate and open-interest fields exactly
when those optional fetches succeed — so a failing optional fetch omits
only its own field and never removes the symbol or its price entry. -/
theorem c6_snapshot_required_vs_optional_fields
    {V E : Type} (o : SnapshotOracle V E) (symbols : List String)
    (s : String) (hs : s ∈ symbols) (hload : o.loadMarkets = .ok ()) :
    (∀ e, o.fetchTicker (getCcxtSymbol s "swap") = .error e →
      (getMarketSnapshot o symbols).lookup s = none)
    ∧ (∀ t, o.fetchTicker (getCcxtSymbol s "swap") = .ok t →
      (getMarketSnapshot o symbols).lookup s
        = some { price := t
                 funding_rate :=
                   (o.fetchFundingRate (getCcxtSymbol s "swap")).toOption
                 open_interest :=
                   (o.fetchOpenInterest (getCcxtSymbol s "swap")).toOption }) := by
  have hsnap : getMarketSnapshot o symbols = symbols.filterMap (snapshotStep o) := by
    unfold getMarketSnapshot
    rw [hload]
  constructor
  · intro e he
    rw [hsnap]
    have hstep : snapshotStep o s = none := by
      simp only [snapshotStep, he]
    exact lookup_snapshot_of_step_none hstep symbols
  · intro t ht
    rw [hsnap]
    have hstep : snapshotStep o s
        = some (s, { price := t
                     funding_rate :=
                       (o.fetchFundingRate (getCcxtSymbol s "swap")).toOption
                     open_interest :=
                       (o.fetchOpenInterest (getCcxtSymbol s "swap")).toOption }) := by
      simp only [snapshotStep, ht]
    exact lookup_snapshot_of_step_some hstep hs

/-- A snapshot oracle for which only the ETH perpetual ticker succeeds,
every funding-rate lookup raises, and open-interest succeeds. -/
def fundingFailsOracle : SnapshotOracle Nat Unit :=
  { loadMarkets := .ok ()
    fetchTicker := fun s => if s == "ETH/USDT:USDT" then .ok 42 else .error ()
    fetchFundingRate := fun _ => .error ()
    fetchOpenInterest := fun _ => .ok 7 }

/-- C6 witness: at the concrete oracle, ETH/USDT keeps its price entry
while its failing funding-rate lookup only omits that field, and
BTC/USDT, whose ticker fetch fails, is absent from the mapping. -/
theorem c6_snapshot_required_vs_optional_fields_witness :
    (getMarketSnapshot fundingFailsOracle ["ETH/USDT", "BTC/USDT"]).lookup "ETH/USDT"
      = some { price := 42, funding_rate := none, open_interest := some 7 }
    ∧ (getMarketSnapshot fundingFailsOracle ["ETH/USDT", "BTC/USDT"]).lookup "BTC/USDT"
      = none :=
  ⟨(c6_snapshot_required_vs_optional_fields fundingFailsOracle
      ["ETH/USDT", "BTC/USDT"] "ETH/USDT" (by decide) rfl).2 42 rfl,
   (c6_snapshot_required_vs_optional_fields fundingFailsOracle
      ["ETH/USDT", "BTC/USDT"] "BTC/USDT" (by decide) rfl).1 () rfl⟩

/-- The built-in multi-timeframe table
DefaultFeaturesPipeline.MULTI_TIMEFRAME_CONFIGS
(pipeline.py lines 43-49). -/
def MULTI_TIMEFRAME_CONFIGS : List CandleConfig :=
  [{ interval := "1m", lookback := 120 },
   { interval := "15m", lookback := 96 },
   { interval := "1h", lookback := 168 },
   { interval := "4h", lookback := 180 },
   { interval := "1d", lookback := 90 }]

/-- The legacy two-entry default table of DefaultFeaturesPipeline.__init__
(pipeline.py lines 73-76). -/
def legacyDefaultConfigs : List CandleConfig :=
  [{ interval := "1s", lookback := 60 * 3 },
   { interval := "1m", lookback := 60 * 4 }]

/-- Embedding of the candle-configuration selection in
DefaultFeaturesPipeline.__init__ (pipeline.py lines 66-76): with the
multi-timeframe flag on, the built-in table is used; with it off, the
caller-supplied list is used when it is truthy (neither None nor empty),
else the legacy default. -/
def initCandleConfigurations (useMultiTimeframe : Bool)
    (candleConfigurations : Option (List CandleConfig)) : List CandleConfig :=
  if useMultiTimeframe then
    MULTI_TIMEFRAME_CONFIGS
  else
    match candleConfigurations with
    | none => legacyDefaultConfigs
    | some l => if l.isEmpty then legacyDefaultConfigs else l

/-- Embedding of the task body _fetch_candles of DefaultFeaturesPipeline
(pipeline.py lines 87-99): the data source is any BaseMarketDataSource,
so its call may raise; it is modelled as a function from (interval,
lookback) to an Except value, and the candle feature computer likewise.
The body catches every exception and converts it to an empty feature
list; an empty fetch result short-circuits to an empty feature list
without invoking the computer. -/
def fetchCandlesTask (source : String → Nat → Except E (List (Candle V)))
    (computer : List (Candle V) → Except E (List F))
    (interval : String) (lookback : Nat) : List F :=
  match source interval lookback with
  | .error _ => []
  | .ok candles =>
    if candles.isEmpty then []
    else
      match computer candles with
      | .error _ => []
      | .ok fs => fs

/-- Embedding of the task body _fetch_market_features of
DefaultFeaturesPipeline (pipeline.py lines 101-113): fetch the snapshot
and run the snapshot computer over it; any exception becomes an empty
feature list. -/
def fetchMarketFeaturesTask (snapshotSource : Except E (List (String × SnapshotEntry V)))
    (computer : List (String × SnapshotEntry V) → Except E (List F)) : List F :=
  match snapshotSource with
  | .error _ => []
  | .ok snapshot =>
    match computer snapshot with
    | .error _ => []
    | .ok fs => fs

/-- The conversion applied at the join of build() to each gathered task
outcome (pipeline.py lines 132-138): an exception outcome becomes an
empty feature list, a normal outcome is kept. -/
def errToEmpty : Except E (List F) → List F
  | .error _ => []
  | .ok fs => fs

/-- Model of the ordered join of asyncio.gather: the scheduled tasks
complete in an arbitrary order, recorded as a list of (submission index,
outcome) pairs; gather returns the outcomes re-assembled in submission
index order. -/
def collectInOrder (n : Nat) (completed : List (Nat × α)) : List α :=
  (List.range n).filterMap fun i =>
    (completed.find? fun p => p.1 == i).map Prod.snd

/-- Embedding of DefaultFeaturesPipeline.build() after task creation
(pipeline.py lines 122-165): one task outcome per timeframe-table entry
plus the snapshot task appended last; the outcomes are gathered in
submission order from the completion record, each exception is converted
to an empty feature list, the last (snapshot) result is popped, the
per-timeframe results are flattened in order, and the snapshot features
are appended last. -/
def buildFeatures (configs : List CandleConfig)
    (taskOutcome : CandleConfig → Except E (List F))
    (snapshotOutcome : Except E (List F))
    (completed : List (Nat × Except E (List F))) : FeaturesPipelineResult F :=
  let tasks := configs.map taskOutcome ++ [snapshotOutcome]
  let results := collectInOrder tasks.length completed
  let validResults := results.map errToEmpty
  let marketFeatures := validResults.getLastD []
  let candleFeatures := validResults.dropLast.flatten
  { features := candleFeatures ++ marketFeatures }

/-- Modelled from the spec: the attributes of FeatureVector (from
valuecell.agents.common.trading.models, not under src/) that
_compute_multi_timeframe_summary reads via getattr with default None:
an optional interval tag and an optional trend attribute. -/
structure FeatureVector where
  interval : Option String
  trend : Option String
deriving DecidableEq, Repr

/-- Python truthiness of the getattr(f, 'interval', None) value: None and
the empty string are falsy (pipeline.py line 185). -/
def truthyInterval : Option String → Bool
  | none => false
  | some s => !(s == "")

/-- One step of the grouping loop of _compute_multi_timeframe_summary
(pipeline.py lines 182-188): append the feature to its interval's group,
creating the group at the end of the mapping on first sight of the key
(dict insertion order). -/
def addToGroups (groups : List (String × List FeatureVector))
    (key : String) (f : FeatureVector) : List (String × List FeatureVector) :=
  if groups.any fun g => g.1 == key then
    groups.map fun g => if g.1 == key then (g.1, g.2 ++ [f]) else g
  else
    groups ++ [(key, [f])]

/-- One step of the grouping fold: a feature with a truthy interval is
routed to its group, any other feature is dropped. -/
def groupStep (groups : List (String × List FeatureVector))
    (f : FeatureVector) : List (String × List FeatureVector) :=
  match f.interval with
  | none => groups
  | some s => if s == "" then groups else addToGroups groups s f

/-- The by_interval grouping of _compute_multi_timeframe_summary
(pipeline.py lines 182-188): features whose interval attribute is truthy
are grouped by it, in first-seen key order; the rest are dropped. -/
def groupByInterval (features : List FeatureVector) :
    List (String × List FeatureVector) :=
  features.foldl groupStep []

/-- One step of the tally loop: a "bullish" trend bumps the first count, a
"bearish" trend the second, anything else neither. -/
def trendStep (acc2 : Nat × Nat) (f : FeatureVector) : Nat × Nat :=
  if f.trend == some "bullish" then (acc2.1 + 1, acc2.2)
  else if f.trend == some "bearish" then (acc2.1, acc2.2 + 1)
  else acc2

/-- The tally loop of _compute_multi_timeframe_summary
(pipeline.py lines 194-205): across all interval groups, count the
features whose trend attribute is "bullish" and those whose trend
attribute is "bearish". -/
def tallyTrends (groups : List (String × List FeatureVector)) : Nat × Nat :=
  groups.foldl (fun acc g => g.2.foldl trendStep acc) (0, 0)

/-- The classification chain of _compute_multi_timeframe_summary
(pipeline.py lines 207-216). -/
def classifyTrendAlignment (bullishCount bearishCount : Nat) : String :=
  if bullishCount > bearishCount * 2 then "strong_bullish"
  else if bearishCount > bullishCount * 2 then "strong_bearish"
  else if bullishCount > bearishCount then "bullish"
  else if bearishCount > bullishCount then "bearish"
  else "neutral"

/-- The summary value assembled by _compute_multi_timeframe_summary:
the list of analysed timeframes and the trend-alignment label. -/
structure MultiTimeframeSummary where
  timeframes_analyzed : List String
  trend_alignment : String
deriving DecidableEq, Repr

/-- Embedding of DefaultFeaturesPipeline._compute_multi_timeframe_summary
(pipeline.py lines 167-218). -/
def computeMultiTimeframeSummary (features : List FeatureVector) :
    MultiTimeframeSummary :=
  let byInterval := groupByInterval features
  let counts := tallyTrends byInterval
  { timeframes_analyzed := byInterval.map Prod.fst
    trend_alignment := classifyTrendAlignment counts.1 counts.2 }

lemma tally_inner (fs : List FeatureVector) :
    ∀ acc : Nat × Nat,
      fs.foldl trendStep acc
        = (acc.1 + fs.countP (fun f => f.trend == some "bullish"),
           acc.2 + fs.countP (fun f => f.trend == some "bearish")) := by
  induction fs with
  | nil => intro acc; simp
  | cons f t ih =>
    intro acc
    simp only [List.foldl_cons, List.countP_cons, ih, trendStep]
    by_cases hb : (f.trend == some "bullish") = true
    · have hr : (f.trend == some "bearish") = false := by
        have he : f.trend = some "bullish" := by simpa using hb
        rw [he]
        decide
      simp [hb, hr, Prod.mk.injEq]
      omega
    · by_cases hr : (f.trend == some "bearish") = true
      · have hb' : (f.trend == some "bullish") = false := Bool.eq_false_iff.mpr hb
        simp [hb', hr, Prod.mk.injEq]
        omega
      · have hb' : (f.trend == some "bullish") = false := Bool.eq_false_iff.mpr hb
        have hr' : (f.trend == some "bearish") = false := Bool.eq_false_iff.mpr hr
        simp [hb', hr']

lemma tally_groups (groups : List (String × List FeatureVector)) :
    ∀ acc : Nat × Nat,
      groups.foldl (fun acc g => g.2.foldl trendStep acc) acc
        = (acc.1 + ((groups.map Prod.snd).flatten.countP
              (fun f => f.trend == some "bullish")),
           acc.2 + ((groups.map Prod.snd).flatten.countP
              (fun f => f.trend == some "bearish"))) := by
  induction groups with
  | nil => intro acc; simp
  | cons g gs ih =>
    intro acc
    rw [List.foldl_cons]
    rw [tally_inner, ih]
    simp only [List.map_cons, List.flatten_cons, List.countP_append,
      Prod.mk.injEq]
    constructor <;> omega

lemma update_map_of_not_mem (key : String) (f : FeatureVector)
    {gs : List (String × List FeatureVector)}
    (h : key ∉ gs.map Prod.fst) :
    gs.map (fun g => if g.1 == key then (g.1, g.2 ++ [f]) else g) = gs := by
  have hid : gs.map (fun g => if g.1 == key then (g.1, g.2 ++ [f]) else g)
      = gs.map id := by
    refine List.map_congr_left fun g hg => ?_
    have hne : g.1 ≠ key := fun e => h (List.mem_map.mpr ⟨g, hg, e⟩)
    have hk : ¬((g.1 == key) = true) := by simpa using hne
    simp [hk]
  rw [hid, List.map_id]

lemma countP_flatten_update (p : FeatureVector → Bool) (f : FeatureVector)
    (key : String) :
    ∀ (groups : List (String × List FeatureVector)),
      (groups.map Prod.fst).Nodup →
      groups.any (fun g => g.1 == key) = true →
      ((groups.map (fun g => if g.1 == key then (g.1, g.2 ++ [f]) else g)).map
          Prod.snd).flatten.countP p
        = (groups.map Prod.snd).flatten.countP p
            + (if p f then 1 else 0) := by
  intro groups
  induction groups with
  | nil => intro _ hany; cases hany
  | cons g gs ih =>
    intro hnodup hany
    by_cases hk : (g.1 == key) = true
    · have hkey : g.1 = key := by simpa using hk
      have hnotin : key ∉ gs.map Prod.fst := by
        rw [← hkey]
        exact (List.nodup_cons.mp (by simpa using hnodup)).1
      simp only [List.map_cons, hk, if_true,
        update_map_of_not_mem key f hnotin, List.flatten_cons,
        List.countP_append]
      cases hpf : p f <;>
        simp [List.countP_cons, List.countP_nil, hpf] <;> omega
    · have hk' : (g.1 == key) = false := by simpa using hk
      have hany' : gs.any (fun g => g.1 == key) = true := by
        simpa [List.any_cons, hk'] using hany
      have hnodup' : (gs.map Prod.fst).Nodup :=
        (List.nodup_cons.mp (by simpa using hnodup)).2
      simp only [List.map_cons, hk', Bool.false_eq_true, if_false,
        List.flatten_cons, List.countP_append, ih hnodup' hany']
      omega

lemma countP_flatten_addToGroups (p : FeatureVector → Bool)
    {groups : List (String × List FeatureVector)} {key : String}
    {f : FeatureVector} (h : (groups.map Prod.fst).Nodup) :
    ((addToGroups groups key f).map Prod.snd).flatten.countP p
      = (groups.map Prod.snd).flatten.countP p + (if p f then 1 else 0) := by
  unfold addToGroups
  by_cases hany : groups.any (fun g => g.1 == key) = true
  · simp only [hany, if_true]
    exact countP_flatten_update p f key groups h hany
  · have hany' : groups.any (fun g => g.1 == key) = false :=
      Bool.eq_false_iff.mpr hany
    simp only [hany', Bool.false_eq_true, if_false, List.map_append,
      List.flatten_append, List.countP_append]
    simp [List.countP_cons]

lemma nodup_keys_addToGroups {groups : List (String × List FeatureVector)}
    {key : String} {f : FeatureVector}
    (h : (groups.map Prod.fst).Nodup) :
    ((addToGroups groups key f).map Prod.fst).Nodup := by
  unfold addToGroups
  by_cases hany : groups.any (fun g => g.1 == key) = true
  · simp only [hany, if_true, List.map_map]
    have hsame : groups.map (Prod.fst ∘ fun g =>
        if g.1 == key then (g.1, g.2 ++ [f]) else g) = groups.map Prod.fst := by
      refine List.map_congr_left fun g _ => ?_
      simp only [Function.comp_apply]
      split <;> rfl
    rw [hsame]
    exact h
  · have hnotin : key ∉ groups.map Prod.fst := by
      intro hm
      rcases List.mem_map.mp hm with ⟨g, hg, he⟩
      exact hany (List.any_eq_true.mpr ⟨g, hg, by simpa using he⟩)
    have hany' : groups.any (fun g => g.1 == key) = false :=
      Bool.eq_false_iff.mpr hany
    simp only [hany', Bool.false_eq_true, if_false, List.map_append]
    rw [List.nodup_append]
    exact ⟨h, List.nodup_singleton key,
      fun a ha hb => by
        simp only [List.map_cons, List.map_nil, List.mem_singleton] at hb
        exact hnotin (hb ▸ ha)⟩

lemma countP_grouped (p : FeatureVector → Bool) :
    ∀ (fs : List FeatureVector) (groups : List (String × List FeatureVector)),
      (groups.map Prod.fst).Nodup →
      ((fs.foldl groupStep groups).map Prod.snd).flatten.countP p
        = (groups.map Prod.snd).flatten.countP p
            + fs.countP (fun f => truthyInterval f.interval && p f) := by
  intro fs
  induction fs with
  | nil => intro groups _; simp
  | cons f t ih =>
    intro groups h
    simp only [List.foldl_cons, List.countP_cons]
    cases hfi : f.interval with
    | none =>
      have hstep : groupStep groups f = groups := by
        simp [groupStep, hfi]
      have hcond : (truthyInterval none && p f) = false := rfl
      rw [hstep, ih groups h, hcond]
      simp
    | some s =>
      by_cases hempty : (s == "") = true
      · have hstep : groupStep groups f = groups := by
          simp only [groupStep, hfi, hempty, if_true]
        have hcond : (truthyInterval (some s) && p f) = false := by
          simp [truthyInterval, hempty]
        rw [hstep, ih groups h, hcond]
        simp
      · have hempty' : (s == "") = false := Bool.eq_false_iff.mpr hempty
        have hstep : groupStep groups f = addToGroups groups s f := by
          simp [groupStep, hfi, hempty']
        have hcond : (truthyInterval (some s) && p f) = p f := by
          simp [truthyInterval, hempty']
        rw [hstep, ih (addToGroups groups s f) (nodup_keys_addToGroups h),
          countP_flatten_addToGroups p h, hcond]
        cases hpf : p f <;> simp [hpf] <;> omega

lemma tallyTrends_groupByInterval (fs : List FeatureVector) :
    tallyTrends (groupByInterval fs)
      = (fs.countP (fun f => truthyInterval f.interval
            && (f.trend == some "bullish")),
         fs.countP (fun f => truthyInterval f.interval
            && (f.trend == some "bearish"))) := by
  unfold tallyTrends groupByInterval
  rw [tally_groups]
  rw [countP_grouped _ fs [] (by simp), countP_grouped _ fs [] (by simp)]
  simp

/-- Written from the claim's words: the four-way classification rule over
the tallied bullish and bearish counts. -/
def claimTrendRule (bullishCount bearishCount : Nat) : String :=
  if bullishCount > 2 * bearishCount then "strong_bullish"
  else if bearishCount > 2 * bullishCount then "strong_bearish"
  else if bullishCount > bearishCount then "bullish"
  else if bearishCount > bullishCount then "bearish"
  else "neutral"

lemma classify_eq_claimRule (b r : Nat) :
    classifyTrendAlignment b r = claimTrendRule b r := by
  unfold classifyTrendAlignment claimTrendRule
  rw [Nat.mul_comm r 2, Nat.mul_comm b 2]

/-- A feature tagged with the given interval and a bullish trend. -/
def bullishFeature (interval : String) : FeatureVector :=
  { interval := some interval, trend := some "bullish" }

/-- A feature tagged with the given interval and a bearish trend. -/
def bearishFeature (interval : String) : FeatureVector :=
  { interval := some interval, trend := some "bearish" }

/-- C5: the trend-alignment summary tallies bullish and bearish counts
across all interval groups (equivalently: over every feature carrying a
truthy interval tag) and classifies them by the claim's four-way rule;
in particular counts (10, 2) spread over two interval groups yield
"strong_bullish", (3, 3) yield "neutral" and (4, 3) yield "bullish". -/
theorem c5_trend_alignment_classification :
    (∀ features : List FeatureVector,
      (computeMultiTimeframeSummary features).trend_alignment
        = claimTrendRule
            (features.countP fun f => truthyInterval f.interval
              && (f.trend == some "bullish"))
            (features.countP fun f => truthyInterval f.interval
              && (f.trend == some "bearish")))
    ∧ (computeMultiTimeframeSummary
        (List.replicate 5 (bullishFeature "1h")
          ++ List.replicate 5 (bullishFeature "4h")
          ++ List.replicate 2 (bearishFeature "1h"))).trend_alignment
        = "strong_bullish"
    ∧ (computeMultiTimeframeSummary
        (List.replicate 3 (bullishFeature "1h")
          ++ List.replicate 3 (bearishFeature "4h"))).trend_alignment
        = "neutral"
    ∧ (computeMultiTimeframeSummary
        (List.replicate 4 (bullishFeature "1h")
          ++ List.replicate 3 (bearishFeature "4h"))).trend_alignment
        = "bullish" := by
  refine ⟨fun features => ?_, by decide, by decide, by decide⟩
  show classifyTrendAlignment (tallyTrends (groupByInterval features)).1
      (tallyTrends (groupByInterval features)).2 = _
  rw [tallyTrends_groupByInterval]
  exact classify_eq_claimRule _ _

lemma map_dash_eq_self {l : List Char} (h : '-' ∉ l) :
    (l.map fun ch => if ch == '-' then '/' else ch) = l := by
  induction l with
  | nil => rfl
  | cons a t ih =>
    have ha : a ≠ '-' := fun e => h (e ▸ List.mem_cons_self a t)
    have ht : '-' ∉ t := fun hm => h (List.mem_cons_of_mem _ hm)
    simp only [List.map_cons, ih ht]
    simp [ha]

lemma pySplit_of_not_mem {sep : Char} {l : List Char} (h : sep ∉ l) :
    pySplit sep l = [l] := by
  induction l with
  | nil => rfl
  | cons a t ih =>
    have ha : a ≠ sep := fun e => h (e ▸ List.mem_cons_self a t)
    have ht : sep ∉ t := fun hm => h (List.mem_cons_of_mem _ hm)
    simp [pySplit, ha, ih ht]

lemma pySplit_append_sep {sep : Char} {b q : List Char} (hb : sep ∉ b) :
    pySplit sep (b ++ sep :: q) = b :: pySplit sep q := by
  induction b with
  | nil => simp [pySplit]
  | cons a t ih =>
    have ha : a ≠ sep := fun e => hb (e ▸ List.mem_cons_self a t)
    have ht : sep ∉ t := fun hm => hb (List.mem_cons_of_mem _ hm)
    rw [List.cons_append]
    simp [pySplit, ha, ih ht]

/-- C4 counterexample: the input "BTC-USDT:USDT" contains ":" yet is not
passed through unchanged by the swap-symbol normalization; the dash is
first normalized to a slash, yielding "BTC/USDT:USDT". -/
theorem c4_counterexample_dash_colon_input :
    getCcxtSymbol "BTC-USDT:USDT" "swap" ≠ "BTC-USDT:USDT"
    ∧ ':' ∈ "BTC-USDT:USDT".toList
    ∧ getCcxtSymbol "BTC-USDT:USDT" "swap" = "BTC/USDT:USDT" := by
  refine ⟨by decide, by decide, by decide⟩

/-- C4 (amended): for a perpetual-swap fetch, after the dash-to-slash
pre-normalization, an input containing ":" is returned as normalized (so
unchanged whenever it contains no "-"), and a dash-free, colon-free input
of the form BASE/QUOTE is translated to BASE/QUOTE:QUOTE. -/
theorem c4_swap_symbol_normalization :
    (∀ s : String, '-' ∉ s.toList → ':' ∈ s.toList →
      getCcxtSymbol s "swap" = s)
    ∧ (∀ b q : List Char, '-' ∉ b → '-' ∉ q → ':' ∉ b → ':' ∉ q →
        '/' ∉ b → '/' ∉ q →
      getCcxtSymbol (String.mk (b ++ '/' :: q)) "swap"
        = String.mk (b ++ '/' :: q ++ ':' :: q)) := by
  constructor
  · intro s hdash hcolon
    cases s with
    | mk d =>
      have hd : '-' ∉ d := hdash
      have hcol : ':' ∈ d := hcolon
      show String.mk (ccxtSymbolCore d "swap") = String.mk d
      unfold ccxtSymbolCore
      rw [map_dash_eq_self hd]
      simp [hcol]
  · intro b q hdb hdq hcb hcq hsb hsq
    show String.mk (ccxtSymbolCore (String.mk (b ++ '/' :: q)).toList "swap")
      = String.mk (b ++ '/' :: q ++ ':' :: q)
    have htl : (String.mk (b ++ '/' :: q)).toList = b ++ '/' :: q := rfl
    unfold ccxtSymbolCore
    rw [htl]
    have hdash : '-' ∉ b ++ '/' :: q := by
      intro hm
      rcases List.mem_append.mp hm with h | h
      · exact hdb h
      · rcases List.mem_cons.mp h with h | h
        · exact absurd h.symm (by decide)
        · exact hdq h
    have hcolonall : ':' ∉ b ++ '/' :: q := by
      intro hm
      rcases List.mem_append.mp hm with h | h
      · exact hcb h
      · rcases List.mem_cons.mp h with h | h
        · exact absurd h.symm (by decide)
        · exact hcq h
    rw [map_dash_eq_self hdash]
    have hsplit : pySplit '/' (b ++ '/' :: q) = [b, q] := by
      rw [pySplit_append_sep hsb, pySplit_of_not_mem hsq]
    simp [hsplit, hcb, hcq, hcolonall]

/-- C4 witness: the amended normalization rules evaluated at the concrete
inputs "ETH/USDT:USDT" (colon present, passed through) and
"BTC" paired with "USDT" (translated to "BTC/USDT:USDT"). -/
theorem c4_swap_symbol_normalization_witness :
    getCcxtSymbol "ETH/USDT:USDT" "swap" = "ETH/USDT:USDT"
    ∧ getCcxtSymbol (String.mk ("BTC".toList ++ '/' :: "USDT".toList)) "swap"
      = String.mk ("BTC".toList ++ '/' :: "USDT".toList ++ ':' :: "USDT".toList) :=
  ⟨c4_swap_symbol_normalization.1 "ETH/USDT:USDT" (by decide) (by decide),
   c4_swap_symbol_normalization.2 "BTC".toList "USDT".toList (by decide)
     (by decide) (by decide) (by decide) (by decide) (by decide)⟩

/-- C10: with the multi-timeframe flag on at construction, any
caller-supplied candle-configuration list is ignored and the built-in
five-entry table is always used; the supplied list takes effect (when
non-empty) only with the flag off. -/
theorem c10_flag_selects_builtin_table :
    (∀ supplied, initCandleConfigurations true supplied = MULTI_TIMEFRAME_CONFIGS)
    ∧ MULTI_TIMEFRAME_CONFIGS.length = 5
    ∧ (∀ l : List CandleConfig, l ≠ [] →
        initCandleConfigurations false (some l) = l) := by
  refine ⟨fun _ => rfl, rfl, fun l hl => ?_⟩
  have : l.isEmpty = false := by simpa using hl
  simp [initCandleConfigurations, this]

lemma foldl_append_eq_flatten (g : α → List β) :
    ∀ (l : List α) (acc : List β),
      l.foldl (fun acc s => acc ++ g s) acc = acc ++ (l.map g).flatten := by
  intro l
  induction l with
  | nil => intro acc; simp
  | cons a t ih => intro acc; simp [ih, List.append_assoc]

lemma getRecentCandles_ok {V E : Type} (exch : String) (o : CandleOracle V E)
    (symbols : List String) (interval : String) (lookback : Nat)
    (markets : List String) (h : o.loadMarkets = .ok markets) :
    (getRecentCandles exch o symbols interval lookback).fst
      = (symbols.map (candlesForSymbol exch o markets
          (if interval == "1s" then "1m" else interval) lookback)).flatten := by
  unfold getRecentCandles
  rw [h]
  simp only
  have hext := List.foldl_ext
    (fun acc symbol =>
      if markets.contains (getCcxtSymbol symbol "swap") then
        match o.fetchOHLCV (getCcxtSymbol symbol "swap")
            (if interval == "1s" then "1m" else interval) lookback with
        | .error _ => acc
        | .ok raw => acc ++ raw.map (rowToCandle exch symbol
            (if interval == "1s" then "1m" else interval))
      else acc)
    (fun acc symbol => acc ++ candlesForSymbol exch o markets
      (if interval == "1s" then "1m" else interval) lookback symbol)
    ([] : List (Candle V)) (l := symbols) ?_
  · rw [hext, foldl_append_eq_flatten, List.nil_append]
  · intro acc symbol _
    simp only [candlesForSymbol]
    by_cases hmem : markets.contains (getCcxtSymbol symbol "swap")
    · simp only [hmem, if_true]
      cases o.fetchOHLCV (getCcxtSymbol symbol "swap")
          (if interval == "1s" then "1m" else interval) lookback with
      | error e => simp
      | ok raw => simp
    · have hnot : getCcxtSymbol symbol "swap" ∉ markets := by simpa using hmem
      simp [hnot]

lemma mem_candlesForSymbol_interval {V E : Type} {exch : String}
    {o : CandleOracle V E} {markets : List String} {interval : String}
    {lookback : Nat} {symbol : String} {c : Candle V}
    (h : c ∈ candlesForSymbol exch o markets interval lookback symbol) :
    c.interval = interval := by
  by_cases hmem : markets.contains (getCcxtSymbol symbol "swap")
  · simp only [candlesForSymbol, hmem, if_true] at h
    cases hf : o.fetchOHLCV (getCcxtSymbol symbol "swap") interval lookback with
    | error e =>
      rw [hf] at h
      exact absurd h (List.not_mem_nil c)
    | ok raw =>
      rw [hf] at h
      rcases List.mem_map.mp h with ⟨r, _, hr⟩
      rw [← hr]
      rfl
  · simp only [candlesForSymbol, Bool.not_eq_true] at hmem
    simp only [candlesForSymbol, hmem] at h
    exact absurd h (List.not_mem_nil c)

lemma mem_getRecentCandles_interval {V E : Type} {exch : String}
    {o : CandleOracle V E} {symbols : List String} {interval : String}
    {lookback : Nat} {c : Candle V}
    (h : c ∈ (getRecentCandles exch o symbols interval lookback).fst) :
    c.interval = (if interval == "1s" then "1m" else interval) := by
  cases hload : o.loadMarkets with
  | error e =>
    unfold getRecentCandles at h
    rw [hload] at h
    exact absurd h (List.not_mem_nil c)
  | ok markets =>
    rw [getRecentCandles_ok exch o symbols interval lookback markets hload] at h
    rcases List.mem_flatten.mp h with ⟨l, hl, hc⟩
    rcases List.mem_map.mp hl with ⟨symbol, _, hs⟩
    rw [← hs] at hc
    exact mem_candlesForSymbol_interval hc

/-- C7: in get_recent_candles, a catalogue-load failure makes the whole
call return the empty candle list without raising, and the session
acquired for the call has its close attempted on every exit path,
including that failure path. -/
theorem c7_catalogue_failure_isolated_session_closed
    {V E : Type} (exch : String) (o : CandleOracle V E)
    (symbols : List String) (interval : String) (lookback : Nat) :
    (∀ e, o.loadMarkets = .error e →
      (getRecentCandles exch o symbols interval lookback).fst = [])
    ∧ SessionEvent.closeAttempted
        ∈ (getRecentCandles exch o symbols interval lookback).snd := by
  constructor
  · intro e he
    unfold getRecentCandles
    rw [he]
  · unfold getRecentCandles
    cases o.loadMarkets with
    | error e => simp
    | ok markets => simp

/-- An exchange-client oracle whose catalogue load always fails. -/
def failingLoadOracle : CandleOracle Unit Unit :=
  { loadMarkets := .error ()
    fetchOHLCV := fun _ _ _ => .error () }

/-- C7 witness: at a concrete oracle whose catalogue load fails, the call
returns no candles and the session close is attempted. -/
theorem c7_catalogue_failure_isolated_session_closed_witness :
    (getRecentCandles "okx" failingLoadOracle ["BTC/USDT"] "1h" 5).fst = []
    ∧ SessionEvent.closeAttempted
        ∈ (getRecentCandles "okx" failingLoadOracle ["BTC/USDT"] "1h" 5).snd :=
  ⟨(c7_catalogue_failure_isolated_session_closed "okx" failingLoadOracle
      ["BTC/USDT"] "1h" 5).1 () rfl,
   (c7_catalogue_failure_isolated_session_closed "okx" failingLoadOracle
      ["BTC/USDT"] "1h" 5).2⟩

/-- C8: in get_recent_candles, once the catalogue loaded, the returned
list is the concatenation, in input-symbol order, of each symbol's
successfully fetched candles, and a symbol absent from the catalogue or
whose fetch raises contributes the empty list (it is skipped, the loop
continues, no error propagates). -/
theorem c8_per_symbol_failures_skip_and_concatenate
    {V E : Type} (exch : String) (o : CandleOracle V E)
    (symbols : List String) (interval : String) (lookback : Nat)
    (markets : List String) (h : o.loadMarkets = .ok markets) :
    (getRecentCandles exch o symbols interval lookback).fst
      = (symbols.map (candlesForSymbol exch o markets
          (if interval == "1s" then "1m" else interval) lookback)).flatten
    ∧ ∀ symbol,
        (markets.contains (getCcxtSymbol symbol "swap") = false
          ∨ ∃ e, o.fetchOHLCV (getCcxtSymbol symbol "swap")
              (if interval == "1s" then "1m" else interval) lookback
                = .error e) →
        candlesForSymbol exch o markets
          (if interval == "1s" then "1m" else interval) lookback symbol
            = [] := by
  refine ⟨getRecentCandles_ok exch o symbols interval lookback markets h,
    fun symbol hfail => ?_⟩
  rcases hfail with hmem | ⟨e, he⟩
  · have hnot : getCcxtSymbol symbol "swap" ∉ markets := by simpa using hmem
    simp [candlesForSymbol, hnot]
  · simp only [candlesForSymbol, he]
    split <;> rfl

/-- An exchange-client oracle knowing two swap markets, with fetches
succeeding for BTC and raising for everything else. -/
def mixedOracle : CandleOracle Nat Unit :=
  { loadMarkets := .ok ["BTC/USDT:USDT", "ETH/USDT:USDT"]
    fetchOHLCV := fun s _ _ =>
      if s == "BTC/USDT:USDT" then
        .ok [{ ts := 1, o := 2, h := 3, l := 4, c := 5, v := 6 }]
      else .error () }

/-- C8 witness: at a concrete oracle, the result is the in-order
concatenation of per-symbol contributions, and the symbol missing from
the catalogue contributes the empty list. -/
theorem c8_per_symbol_failures_skip_and_concatenate_witness :
    (getRecentCandles "okx" mixedOracle ["BTC/USDT", "DOGE/USDT", "ETH/USDT"]
        "1h" 5).fst
      = ((["BTC/USDT", "DOGE/USDT", "ETH/USDT"] : List String).map
          (candlesForSymbol "okx" mixedOracle ["BTC/USDT:USDT", "ETH/USDT:USDT"]
            (if "1h" == "1s" then "1m" else "1h") 5)).flatten
    ∧ candlesForSymbol "okx" mixedOracle ["BTC/USDT:USDT", "ETH/USDT:USDT"]
        (if "1h" == "1s" then "1m" else "1h") 5 "DOGE/USDT" = [] :=
  ⟨(c8_per_symbol_failures_skip_and_concatenate "okx" mixedOracle
      ["BTC/USDT", "DOGE/USDT", "ETH/USDT"] "1h" 5
      ["BTC/USDT:USDT", "ETH/USDT:USDT"] rfl).1,
   (c8_per_symbol_failures_skip_and_concatenate "okx" mixedOracle
      ["BTC/USDT", "DOGE/USDT", "ETH/USDT"] "1h" 5
      ["BTC/USDT:USDT", "ETH/USDT:USDT"] rfl).2 "DOGE/USDT"
      (Or.inl (by decide))⟩

lemma foldl_append_singleton (f : α → β) :
    ∀ (l : List α) (acc : List β),
      l.foldl (fun res e => res ++ [f e]) acc = acc ++ l.map f := by
  intro l
  induction l with
  | nil => intro acc; simp
  | cons a t ih => intro acc; simp [ih, List.append_assoc]

lemma symbol_loop_eq_flatten {V E : Type} (exch : String) (o : CandleOracle V E)
    (markets : List String) (interval : String) (lookback : Nat)
    (symbols : List String) :
    symbols.foldl (fun acc symbol =>
        if markets.contains (getCcxtSymbol symbol "swap") then
          match o.fetchOHLCV (getCcxtSymbol symbol "swap") interval lookback with
          | .error _ => acc
          | .ok raw => acc ++ raw.map (rowToCandle exch symbol interval)
        else acc) []
      = (symbols.map (candlesForSymbol exch o markets interval lookback)).flatten := by
  have hext := List.foldl_ext
    (fun acc symbol =>
      if markets.contains (getCcxtSymbol symbol "swap") then
        match o.fetchOHLCV (getCcxtSymbol symbol "swap") interval lookback with
        | .error _ => acc
        | .ok raw => acc ++ raw.map (rowToCandle exch symbol interval)
      else acc)
    (fun acc symbol => acc ++ candlesForSymbol exch o markets interval
      lookback symbol)
    ([] : List (Candle V)) (l := symbols) ?_
  · rw [hext, foldl_append_eq_flatten, List.nil_append]
  · intro acc symbol _
    simp only [candlesForSymbol]
    by_cases hmem : markets.contains (getCcxtSymbol symbol "swap")
    · simp only [hmem, if_true]
      cases o.fetchOHLCV (getCcxtSymbol symbol "swap") interval lookback with
      | error e => simp
      | ok raw => simp
    · have hnot : getCcxtSymbol symbol "swap" ∉ markets := by simpa using hmem
      simp [hnot]

/-- An exchange-client oracle whose fetch returns one row exactly when the
requested timeframe is "1s" and an empty list otherwise, so the interval
actually sent to the exchange is observable in the result. -/
def secondsOracle : CandleOracle Nat Unit :=
  { loadMarkets := .ok ["BTC/USDT:USDT"]
    fetchOHLCV := fun _ tf _ =>
      if tf == "1s" then
        .ok [{ ts := 1, o := 2, h := 3, l := 4, c := 5, v := 6 }]
      else .ok [] }

/-- C3 counterexample: at a concrete oracle whose catalogue knows
BTC/USDT:USDT and whose fetch returns a row only for interval "1s", the
source-derived get_multi_timeframe_candles differs from the spec-worded
fallback variant on the table [("1s", 1)]: the fetch is issued with "1s"
itself, producing a candle tagged "1s", not with "1m". -/
theorem c3_counterexample_one_second_entry :
    getMultiTimeframeCandles "okx" secondsOracle ["BTC/USDT"] [("1s", 1)]
      ≠ getMultiTimeframeCandlesSpecFallback "okx" secondsOracle
          ["BTC/USDT"] [("1s", 1)]
    ∧ getMultiTimeframeCandles "okx" secondsOracle ["BTC/USDT"] [("1s", 1)]
      = [("1s", [rowToCandle "okx" "BTC/USDT" "1s"
          { ts := 1, o := 2, h := 3, l := 4, c := 5, v := 6 }])] :=
  ⟨by decide, by decide⟩

/-- C3 (amended): get_multi_timeframe_candles applies no
unsupported-interval fallback: once the shared session loaded the
catalogue, each timeframe-table entry — a "1s" entry included — is
fetched with its own interval label unchanged and its candles are tagged
with it, in table order; the 1s-to-1m substitution exists only in
get_recent_candles. -/
theorem c3_multi_timeframe_uses_interval_verbatim
    {V E : Type} (exch : String) (o : CandleOracle V E)
    (symbols : List String) (timeframes : List (String × Nat))
    (markets : List String) (h : o.loadMarkets = .ok markets) :
    getMultiTimeframeCandles exch o symbols timeframes
      = timeframes.map fun entry => (entry.1,
          (symbols.map (candlesForSymbol exch o markets entry.1
            entry.2)).flatten) := by
  unfold getMultiTimeframeCandles
  rw [h]
  simp only
  have hext := List.foldl_ext
    (fun result (entry : String × Nat) =>
      result ++ [(entry.1, symbols.foldl (fun acc symbol =>
        if markets.contains (getCcxtSymbol symbol "swap") then
          match o.fetchOHLCV (getCcxtSymbol symbol "swap") entry.1 entry.2 with
          | .error _ => acc
          | .ok raw => acc ++ raw.map (rowToCandle exch symbol entry.1)
        else acc) [])])
    (fun result (entry : String × Nat) =>
      result ++ [(entry.1,
        (symbols.map (candlesForSymbol exch o markets entry.1
          entry.2)).flatten)])
    ([] : List (String × List (Candle V))) (l := timeframes) ?_
  · rw [hext, foldl_append_singleton, List.nil_append]
  · intro result entry _
    dsimp only
    rw [symbol_loop_eq_flatten]

/-- C3 witness: the amended characterization evaluated at the concrete
oracle, for a table holding a "1s" and a "1m" entry. -/
theorem c3_multi_timeframe_uses_interval_verbatim_witness :
    getMultiTimeframeCandles "okx" secondsOracle ["BTC/USDT"]
        [("1s", 1), ("1m", 2)]
      = ([("1s", 1), ("1m", 2)] : List (String × Nat)).map fun entry =>
          (entry.1, ((["BTC/USDT"] : List String).map
            (candlesForSymbol "okx" secondsOracle ["BTC/USDT:USDT"] entry.1
              entry.2)).flatten) :=
  c3_multi_timeframe_uses_interval_verbatim "okx" secondsOracle ["BTC/USDT"]
    [("1s", 1), ("1m", 2)] ["BTC/USDT:USDT"] rfl

/-- C9: a get_recent_candles call requested with interval "1s" behaves
exactly as a call requested with "1m", and every candle it returns is
labelled with interval "1m", never with the originally requested "1s". -/
theorem c9_one_second_candles_relabelled
    {V E : Type} (exch : String) (o : CandleOracle V E)
    (symbols : List String) (lookback : Nat) :
    getRecentCandles exch o symbols "1s" lookback
      = getRecentCandles exch o symbols "1m" lookback
    ∧ ∀ c ∈ (getRecentCandles exch o symbols "1s" lookback).fst,
        c.interval = "1m" ∧ c.interval ≠ "1s" := by
  refine ⟨rfl, fun c hc => ?_⟩
  have := mem_getRecentCandles_interval hc
  rw [show (if ("1s" : String) == "1s" then "1m" else "1s") = "1m" from rfl]
    at this
  exact ⟨this, by rw [this]; decide⟩

/-- C9 witness: the concrete candle returned for a "1s" request at a
concrete oracle is labelled "1m" and not "1s". -/
theorem c9_one_second_candles_relabelled_witness :
    rowToCandle "okx" "BTC/USDT" "1m"
        ({ ts := 1, o := 2, h := 3, l := 4, c := 5, v := 6 } : OhlcvRow Nat)
      ∈ (getRecentCandles "okx" mixedOracle ["BTC/USDT"] "1s" 5).fst
    ∧ (rowToCandle "okx" "BTC/USDT" "1m"
        ({ ts := 1, o := 2, h := 3, l := 4, c := 5, v := 6 } : OhlcvRow Nat)).interval
        = "1m" :=
  ⟨by decide,
   ((c9_one_second_candles_relabelled "okx" mixedOracle ["BTC/USDT"] 5).2 _
      (by decide)).1⟩

/-- C10 witness: with the flag on, a concrete supplied list is ignored in
favour of the built-in table; with the flag off, the same list is used. -/
theorem c10_flag_selects_builtin_table_witness :
    initCandleConfigurations true (some [{ interval := "2h", lookback := 7 }])
      = MULTI_TIMEFRAME_CONFIGS
    ∧ initCandleConfigurations false (some [{ interval := "2h", lookback := 7 }])
      = [{ interval := "2h", lookback := 7 }] :=
  ⟨c10_flag_selects_builtin_table.1 _,
   c10_flag_selects_builtin_table.2.2 [{ interval := "2h", lookback := 7 }]
     (by decide)⟩

lemma filterMap_getElem?_range {α : Type} (l : List α) :
    (List.range l.length).filterMap (fun i => l[i]?) = l := by
  induction l with
  | nil => rfl
  | cons a t ih =>
    simp only [List.length_cons, List.range_succ_eq_map, List.filterMap_cons,
      List.getElem?_cons_zero, List.filterMap_map]
    have hcomp : ((fun i => (a :: t)[i]?) ∘ Nat.succ) = fun i => t[i]? := by
      funext i
      simp [Nat.succ_eq_add_one, List.getElem?_cons_succ]
    rw [hcomp, ih]

lemma find?_perm_enum {α : Type} {tasks : List α} {completed : List (Nat × α)}
    (h : completed.Perm tasks.enum) (i : Nat) :
    completed.find? (fun p => p.1 == i) = (tasks[i]?).map fun a => (i, a) := by
  cases hfind : completed.find? (fun p => p.1 == i) with
  | none =>
    cases hi : tasks[i]? with
    | none => rfl
    | some a =>
      exfalso
      have hm : (i, a) ∈ completed :=
        h.mem_iff.mpr (List.mk_mem_enum_iff_getElem?.mpr hi)
      have := List.find?_eq_none.mp hfind _ hm
      simp at this
  | some p =>
    cases p with
    | mk k v =>
      have hp := List.find?_some hfind
      have hkey : k = i := by simpa using hp
      have hpe : (k, v) ∈ tasks.enum :=
        h.mem_iff.mp (List.mem_of_find?_eq_some hfind)
      have hget : tasks[k]? = some v := List.mk_mem_enum_iff_getElem?.mp hpe
      subst hkey
      rw [hget]
      rfl

lemma collectInOrder_perm {α : Type} {tasks : List α}
    {completed : List (Nat × α)} (h : completed.Perm tasks.enum) :
    collectInOrder tasks.length completed = tasks := by
  unfold collectInOrder
  have hfun : (fun i => (completed.find? fun p => p.1 == i).map Prod.snd)
      = fun i => tasks[i]? := by
    funext i
    rw [find?_perm_enum h i]
    cases tasks[i]? <;> rfl
  rw [hfun, filterMap_getElem?_range]

lemma buildFeatures_eq {F E : Type} (configs : List CandleConfig)
    (taskOutcome : CandleConfig → Except E (List F))
    (snapshotOutcome : Except E (List F))
    (completed : List (Nat × Except E (List F)))
    (h : completed.Perm ((configs.map taskOutcome ++ [snapshotOutcome]).enum)) :
    buildFeatures configs taskOutcome snapshotOutcome completed
      = { features := (configs.map fun c => errToEmpty (taskOutcome c)).flatten
            ++ errToEmpty snapshotOutcome } := by
  simp only [buildFeatures]
  rw [collectInOrder_perm h]
  rw [List.map_append, List.map_map, List.map_cons, List.map_nil]
  rw [List.dropLast_concat, List.getLastD_concat]
  rfl

/-- C1: build() always returns a PipelineResult (buildFeatures is a total
function): whatever the completion order, every task outcome that is an
exception is converted at the join into an empty feature list, the result
being exactly the per-entry converted lists in table order followed by
the snapshot's; consequently each successful task's features — other
timeframes' or the snapshot's — survive any other task's failure as a
sublist of the result. -/
theorem c1_build_converts_task_failures_at_join
    {F E : Type} (configs : List CandleConfig)
    (taskOutcome : CandleConfig → Except E (List F))
    (snapshotOutcome : Except E (List F))
    (completed : List (Nat × Except E (List F)))
    (h : completed.Perm ((configs.map taskOutcome ++ [snapshotOutcome]).enum)) :
    (buildFeatures configs taskOutcome snapshotOutcome completed).features
      = (configs.map fun c => errToEmpty (taskOutcome c)).flatten
          ++ errToEmpty snapshotOutcome
    ∧ (∀ c ∈ configs, ∀ l, taskOutcome c = .ok l →
        l.Sublist
          (buildFeatures configs taskOutcome snapshotOutcome completed).features)
    ∧ ∀ l, snapshotOutcome = .ok l →
        l.Sublist
          (buildFeatures configs taskOutcome snapshotOutcome completed).features := by
  have he := buildFeatures_eq configs taskOutcome snapshotOutcome completed h
  refine ⟨by rw [he], fun c hc l hl => ?_, fun l hl => ?_⟩
  · rw [he]
    have hmem : errToEmpty (taskOutcome c)
        ∈ configs.map fun c => errToEmpty (taskOutcome c) :=
      List.mem_map_of_mem _ hc
    have hsub := List.sublist_flatten_of_mem hmem
    rw [hl] at hsub
    exact hsub.trans (List.sublist_append_left _ _)
  · rw [he, hl]
    exact List.sublist_append_right _ _

/-- C2: whatever order the concurrent tasks complete in, build() returns
the same result, namely the per-timeframe feature lists concatenated in
timeframe-table order with the snapshot-derived features appended last. -/
theorem c2_build_result_order_independent_of_completion
    {F E : Type} (configs : List CandleConfig)
    (taskOutcome : CandleConfig → Except E (List F))
    (snapshotOutcome : Except E (List F))
    (completed1 completed2 : List (Nat × Except E (List F)))
    (h1 : completed1.Perm ((configs.map taskOutcome ++ [snapshotOutcome]).enum))
    (h2 : completed2.Perm ((configs.map taskOutcome ++ [snapshotOutcome]).enum)) :
    buildFeatures configs taskOutcome snapshotOutcome completed1
      = buildFeatures configs taskOutcome snapshotOutcome completed2
    ∧ (buildFeatures configs taskOutcome snapshotOutcome completed1).features
      = (configs.map fun c => errToEmpty (taskOutcome c)).flatten
          ++ errToEmpty snapshotOutcome := by
  have e1 := buildFeatures_eq configs taskOutcome snapshotOutcome completed1 h1
  have e2 := buildFeatures_eq configs taskOutcome snapshotOutcome completed2 h2
  exact ⟨e1.trans e2.symm, by rw [e1]⟩

deriving instance DecidableEq for Except

/-- A concrete two-entry timeframe table for exercising the join. -/
def configsW : List CandleConfig :=
  [{ interval := "1m", lookback := 1 }, { interval := "1h", lookback := 2 }]

/-- Concrete task outcomes: the "1m" task succeeds with [1], every other
timeframe task raises. -/
def taskW (c : CandleConfig) : Except Unit (List Nat) :=
  if c.interval == "1m" then .ok [1] else .error ()

/-- Concrete snapshot outcome succeeding with [9]. -/
def snapW : Except Unit (List Nat) := .ok [9]

/-- A completion record in which the snapshot finishes first and the
failing "1h" task last. -/
def completedW : List (Nat × Except Unit (List Nat)) :=
  [(2, .ok [9]), (0, .ok [1]), (1, .error ())]

/-- A second completion record in a different order. -/
def completedW2 : List (Nat × Except Unit (List Nat)) :=
  [(1, .error ()), (2, .ok [9]), (0, .ok [1])]

/-- C1 witness: at the concrete outcomes, the failing "1h" task is
converted to an empty list while the "1m" task's features and the
snapshot's features survive in the result. -/
theorem c1_build_converts_task_failures_at_join_witness :
    (buildFeatures configsW taskW snapW completedW).features
      = (configsW.map fun c => errToEmpty (taskW c)).flatten ++ errToEmpty snapW
    ∧ List.Sublist [1] (buildFeatures configsW taskW snapW completedW).features :=
  ⟨(c1_build_converts_task_failures_at_join configsW taskW snapW completedW
      (by decide)).1,
   (c1_build_converts_task_failures_at_join configsW taskW snapW completedW
      (by decide)).2.1 { interval := "1m", lookback := 1 } (by decide) [1] rfl⟩

/-- C2 witness: two different concrete completion orders give the same
result, in submission order. -/
theorem c2_build_result_order_independent_of_completion_witness :
    buildFeatures configsW taskW snapW completedW
      = buildFeatures configsW taskW snapW completedW2
    ∧ (buildFeatures configsW taskW snapW completedW).features
      = (configsW.map fun c => errToEmpty (taskW c)).flatten
          ++ errToEmpty snapW :=
  ⟨(c2_build_result_order_independent_of_completion configsW taskW snapW
      completedW completedW2 (by decide) (by decide)).1,
   (c2_build_result_order_independent_of_completion configsW taskW snapW
      completedW completedW2 (by decide) (by decide)).2⟩

end ValueCell
